import Mathlib

/-!
Verification of the PackageMeta plugin core (`src/packagemeta.py`).

The source is a small publish/subscribe registry plus a dependency table:

* `_receivers` is a dict mapping a channel string to the list of receiver
  instances registered on it; `_register_receivers` scans the `Receiver`
  subclasses, skips (with a warning) any whose `channel` attribute is `None`,
  and appends an instance of each remaining one to its channel entry.
* `broadcast(channel, data)` raises an exception when `channel` is not a
  string; otherwise it spawns a thread running `_broadcast`, which invokes
  `receiver.receive(data)` on each entry of `_receivers.get(channel, [])`
  in list order.
* `_requires` is a dict mapping a module name to the set of package names it
  declared; both the `requires(*pkgs)` decorator and
  `PackageMetaSetRequiresCommand.run` update it by
  `s = _requires.get(module, set()); for pkg in pkgs: s.add(pkg);
  _requires[module] = s`.
* The function `_require` produced by the decorator runs the wrapped `fn`
  only when `exists(pkg)` holds, where `pkg` is the loop variable left over
  from the registration loop, hence the last element of `pkgs`; when `pkgs`
  is empty the loop never binds `pkg` and calling `_require` raises a
  `NameError`.
* `PackageMetaInstallRequiresCommand.get_missing_pkgs` filters the declared
  set of a module by membership in the installed-package listing.

Python dicts are embedded as association lists with first-match lookup and
in-place update; Python sets of strings as `Finset String`; the
`os.path.exists` check as an oracle `String → Bool`; the thread body of a
broadcast as the list of `receive` invocations (receiver id, payload) it
performs, in order.
-/

/-- A Python value as far as `broadcast`'s `isinstance(channel, (str, unicode))`
check is concerned: a string, an integer, or `None`. -/
inductive PyVal where
  | str (s : String)
  | int (n : Int)
  | noneV
  deriving DecidableEq, Repr

/-- The `isinstance(channel, (str, unicode))` test in `broadcast`. -/
def isString : PyVal → Bool
  | .str _ => true
  | _ => false

/-- The exceptions the embedded code can raise: the bare `raise Exception("")`
in `broadcast` on a non-string channel (the spec names this condition
`InvalidChannelType`), and the Python `NameError` raised by `_require` when
its free variable `pkg` was never bound. -/
inductive PyExc where
  | invalidChannelType
  | nameError
  deriving DecidableEq, Repr

/-- `d.get(k, dflt)` on a Python dict embedded as an association list. -/
def dictGet {κ ν : Type} [DecidableEq κ] (d : List (κ × ν)) (k : κ) (dflt : ν) : ν :=
  match d with
  | [] => dflt
  | p :: rest => if p.1 = k then p.2 else dictGet rest k dflt

/-- `d[k] = v` on a Python dict embedded as an association list: replace the
existing entry in place, or append a new entry at the end. -/
def dictSet {κ ν : Type} [DecidableEq κ] (d : List (κ × ν)) (k : κ) (v : ν) : List (κ × ν) :=
  match d with
  | [] => [(k, v)]
  | p :: rest => if p.1 = k then (k, v) :: rest else p :: dictSet rest k v

/-- `k in d` on a Python dict embedded as an association list. -/
def hasKey {κ ν : Type} [DecidableEq κ] (d : List (κ × ν)) (k : κ) : Bool :=
  match d with
  | [] => false
  | p :: rest => if p.1 = k then true else hasKey rest k

/-- The `_receivers` dict: channel → receiver instances, each instance
identified by the numeric id of the `Receiver` subclass it instantiates. -/
abbrev RecRegistry := List (String × List Nat)

/-- A `Receiver` subclass as `_register_receivers` sees it: its identity and
its `channel` class attribute (`none` embeds Python `None`). -/
structure ReceiverCls where
  id : Nat
  channel : Option String
  deriving DecidableEq, Repr

/-- `_register_receivers`: fold over the `Receiver.__subclasses__()` list,
skipping (and recording a warning for) a subclass whose `channel` is `None`,
and otherwise appending a fresh instance to the channel's entry via
`_receivers[sub.channel] = _receivers.get(sub.channel, []) + [sub()]`.
Returns the updated registry together with the ids warned about. -/
def registerReceivers (reg : RecRegistry) (warns : List Nat) :
    List ReceiverCls → RecRegistry × List Nat
  | [] => (reg, warns)
  | c :: rest =>
    match c.channel with
    | none => registerReceivers reg (warns ++ [c.id]) rest
    | some ch => registerReceivers (dictSet reg ch (dictGet reg ch [] ++ [c.id])) warns rest

/-- The body of the closure `_broadcast` spawned by `broadcast`: the
`receive` invocations `(receiver, data)` it performs, in the order of
`_receivers.get(channel, [])`. -/
def broadcastRun {α : Type} (reg : RecRegistry) (channel : String) (data : α) : List (Nat × α) :=
  (dictGet reg channel []).map (fun r => (r, data))

/-- `broadcast(channel, data)`: raise on a non-string channel before anything
else; otherwise the spawned thread performs the invocations of
`broadcastRun`. -/
def broadcast {α : Type} (reg : RecRegistry) (channel : PyVal) (data : α) :
    Except PyExc (List (Nat × α)) :=
  match channel with
  | .str c => .ok (broadcastRun reg c data)
  | _ => .error .invalidChannelType

/-- The `receive` invocations a `broadcast` call leads to: none at all when it
raises. -/
def invocations {α : Type} : Except PyExc (List (Nat × α)) → List (Nat × α)
  | .ok evs => evs
  | .error _ => []

/-- The `_requires` dict: module name → declared package-name set. -/
abbrev ReqTable := List (String × Finset String)

/-- The registration body shared verbatim by the `requires(*pkgs)` decorator
(`_decor`, lines 140–145) and `PackageMetaSetRequiresCommand.run`
(lines 170–177): `s = _requires.get(module, set()); for pkg in pkgs:
s.add(pkg); _requires[module] = s`. -/
def declarePkgs (table : ReqTable) (module : String) (pkgs : List String) : ReqTable :=
  dictSet table module (pkgs.foldl (fun s p => insert p s) (dictGet table module ∅))

/-- `exists(*pkgs)`: true iff every named package is present, with the
per-package `os.path.exists(os.path.join(sublime.packages_path(), pkg))`
test abstracted as the oracle. -/
def existsPkgs (oracle : String → Bool) (pkgs : List String) : Bool :=
  pkgs.all oracle

/-- Calling the wrapped function `_require` produced by `requires(*pkgs)`:
it reads the decorator loop's leftover variable `pkg` — the last element of
`pkgs`, unbound (Python `NameError`) when `pkgs` is empty — and runs `fn`
exactly when `exists(pkg)` holds, returning `None` otherwise. `fn` is
embedded by the value the call `fn(*args, **kwargs)` would return. -/
def requireCall {α : Type} (oracle : String → Bool) (pkgs : List String) (fn : α) :
    Except PyExc (Option α) :=
  match pkgs.getLast? with
  | none => .error .nameError
  | some pkg => if existsPkgs oracle [pkg] then .ok (some fn) else .ok none

/-- `PackageMetaInstallRequiresCommand.get_pkgs`:
`_requires.get(module, [])` (the empty default embedded as the empty set). -/
def get_pkgs (table : ReqTable) (module : String) : Finset String :=
  dictGet table module ∅

/-- `PackageMetaInstallRequiresCommand.get_missing_pkgs`:
`[pkg for pkg in self.get_pkgs() if pkg not in installed]`, at the set level
(Python set iteration order is unspecified; the spec requires none). -/
def get_missing_pkgs (table : ReqTable) (module : String) (installed : Finset String) :
    Finset String :=
  (get_pkgs table module).filter (fun p => p ∉ installed)

/-! ### Dictionary lemmas -/

theorem dictGet_nil {κ ν : Type} [DecidableEq κ] (k : κ) (dflt : ν) :
    dictGet ([] : List (κ × ν)) k dflt = dflt := rfl

theorem dictGet_dictSet_self {κ ν : Type} [DecidableEq κ]
    (d : List (κ × ν)) (k : κ) (v : ν) (dflt : ν) :
    dictGet (dictSet d k v) k dflt = v := by
  induction d with
  | nil => simp [dictGet, dictSet]
  | cons p rest ih =>
    by_cases h : p.1 = k
    · simp [dictGet, dictSet, h]
    · simp [dictGet, dictSet, h, ih]

theorem dictGet_dictSet_ne {κ ν : Type} [DecidableEq κ]
    (d : List (κ × ν)) (k k' : κ) (v : ν) (dflt : ν) (hne : k' ≠ k) :
    dictGet (dictSet d k v) k' dflt = dictGet d k' dflt := by
  have hkk : k ≠ k' := fun h => hne h.symm
  induction d with
  | nil => simp [dictGet, dictSet, hkk]
  | cons p rest ih =>
    by_cases h : p.1 = k
    · simp [dictGet, dictSet, h, hkk]
    · simp [dictGet, dictSet, h, ih]

theorem hasKey_dictSet {κ ν : Type} [DecidableEq κ]
    (d : List (κ × ν)) (k : κ) (v : ν) :
    hasKey (dictSet d k v) k = true := by
  induction d with
  | nil => simp [hasKey, dictSet]
  | cons p rest ih =>
    by_cases h : p.1 = k
    · simp [hasKey, dictSet, h]
    · simp [hasKey, dictSet, h, ih]

theorem foldl_insert_toFinset (P : List String) (s : Finset String) :
    P.foldl (fun t p => insert p t) s = s ∪ P.toFinset := by
  induction P generalizing s with
  | nil => simp
  | cons p P ih =>
    simp only [List.foldl_cons, ih, List.toFinset_cons]
    ext q
    simp [or_comm, or_left_comm]

/-! ### Claim theorems -/

/-- C1: calling `broadcast` with a non-string channel value (e.g. the integer
`42`) fails synchronously with the invalid-channel-type error — the bare
exception the source raises before spawning the dispatch thread — and no
receiver's `receive` method is invoked. -/
theorem broadcast_nonstring_raises {α : Type} (reg : RecRegistry) (c : PyVal) (d : α)
    (h : isString c = false) :
    broadcast reg c d = .error PyExc.invalidChannelType ∧
    invocations (broadcast reg c d) = [] := by
  cases c with
  | str s => simp [isString] at h
  | int n => exact ⟨rfl, rfl⟩
  | noneV => exact ⟨rfl, rfl⟩

theorem broadcast_nonstring_raises_witness :
    isString (PyVal.int 42) = false ∧
    (broadcast ([] : RecRegistry) (PyVal.int 42) (0 : Nat) = .error PyExc.invalidChannelType ∧
     invocations (broadcast ([] : RecRegistry) (PyVal.int 42) (0 : Nat)) = []) :=
  ⟨rfl, broadcast_nonstring_raises [] (PyVal.int 42) 0 rfl⟩

/-- C2: registering receiver classes `c1` then `c2` on channel `C` appends
their instances to `C`'s sequence in that order; a single `broadcast` on `C`
performs exactly the `receive(data)` invocations of that sequence, iterated
in order, so `c1`'s instance appears in the invocation list at an earlier
position than `c2`'s. -/
theorem broadcast_in_registration_order {α : Type} (reg : RecRegistry) (warns : List Nat)
    (C : String) (d : α) (c1 c2 : ReceiverCls)
    (h1 : c1.channel = some C) (h2 : c2.channel = some C) :
    dictGet (registerReceivers reg warns [c1, c2]).1 C [] = dictGet reg C [] ++ [c1.id, c2.id] ∧
    broadcast (registerReceivers reg warns [c1, c2]).1 (.str C) d
      = .ok ((dictGet reg C [] ++ [c1.id, c2.id]).map (fun r => (r, d))) ∧
    ((dictGet reg C [] ++ [c1.id, c2.id]).map (fun r => (r, d)))[(dictGet reg C []).length]?
      = some (c1.id, d) ∧
    ((dictGet reg C [] ++ [c1.id, c2.id]).map (fun r => (r, d)))[(dictGet reg C []).length + 1]?
      = some (c2.id, d) := by
  have hget : dictGet (registerReceivers reg warns [c1, c2]).1 C []
      = dictGet reg C [] ++ [c1.id, c2.id] := by
    simp [registerReceivers, h1, h2, dictGet_dictSet_self]
  refine ⟨hget, ?_, ?_, ?_⟩
  · simp [broadcast, broadcastRun, hget]
  · rw [List.getElem?_map, List.getElem?_append_right (Nat.le_refl _)]
    simp
  · rw [List.getElem?_map, List.getElem?_append_right (Nat.le_succ_of_le (Nat.le_refl _))]
    simp

theorem broadcast_in_registration_order_witness :
    (ReceiverCls.mk 1 (some "ping")).channel = some "ping" ∧
    (ReceiverCls.mk 2 (some "ping")).channel = some "ping" ∧
    (dictGet (registerReceivers [] [] [ReceiverCls.mk 1 (some "ping"),
        ReceiverCls.mk 2 (some "ping")]).1 "ping" []
        = dictGet ([] : RecRegistry) "ping" [] ++ [(ReceiverCls.mk 1 (some "ping")).id,
            (ReceiverCls.mk 2 (some "ping")).id] ∧
      broadcast (registerReceivers [] [] [ReceiverCls.mk 1 (some "ping"),
          ReceiverCls.mk 2 (some "ping")]).1 (.str "ping") (7 : Nat)
        = .ok ((dictGet ([] : RecRegistry) "ping" [] ++ [(ReceiverCls.mk 1 (some "ping")).id,
            (ReceiverCls.mk 2 (some "ping")).id]).map (fun r => (r, 7))) ∧
      ((dictGet ([] : RecRegistry) "ping" [] ++ [(ReceiverCls.mk 1 (some "ping")).id,
          (ReceiverCls.mk 2 (some "ping")).id]).map
            (fun r => (r, 7)))[(dictGet ([] : RecRegistry) "ping" []).length]?
        = some ((ReceiverCls.mk 1 (some "ping")).id, 7) ∧
      ((dictGet ([] : RecRegistry) "ping" [] ++ [(ReceiverCls.mk 1 (some "ping")).id,
          (ReceiverCls.mk 2 (some "ping")).id]).map
            (fun r => (r, 7)))[(dictGet ([] : RecRegistry) "ping" []).length + 1]?
        = some ((ReceiverCls.mk 2 (some "ping")).id, 7)) :=
  ⟨rfl, rfl, broadcast_in_registration_order [] [] "ping" 7
    (ReceiverCls.mk 1 (some "ping")) (ReceiverCls.mk 2 (some "ping")) rfl rfl⟩

/-- C6: broadcasting on a channel with zero registered receivers completes
without error and performs no `receive` invocation; lookup of an absent
channel yields the empty sequence, never an error. -/
theorem broadcast_empty_channel {α : Type} (reg : RecRegistry) (C : String) (d : α)
    (h : hasKey reg C = false) :
    dictGet reg C [] = [] ∧
    broadcast reg (.str C) d = .ok [] ∧
    invocations (broadcast reg (.str C) d) = [] := by
  have hget : dictGet reg C [] = [] := by
    induction reg with
    | nil => rfl
    | cons p rest ih =>
      by_cases hp : p.1 = C
      · simp [hasKey, hp] at h
      · simp [hasKey, hp] at h
        simp [dictGet, hp, ih h]
  refine ⟨hget, ?_, ?_⟩ <;> simp [broadcast, broadcastRun, invocations, hget]

theorem broadcast_empty_channel_witness :
    hasKey ([("pong", [3])] : RecRegistry) "ping" = false ∧
    (dictGet ([("pong", [3])] : RecRegistry) "ping" [] = [] ∧
     broadcast ([("pong", [3])] : RecRegistry) (.str "ping") (5 : Nat) = .ok [] ∧
     invocations (broadcast ([("pong", [3])] : RecRegistry) (.str "ping") (5 : Nat)) = []) :=
  ⟨by decide, broadcast_empty_channel [("pong", [3])] "ping" 5 (by decide)⟩

/-- C8: during discovery, a receiver class whose `channel` attribute is `None`
is skipped: its id is appended to the warning diagnostics, the registry is
passed on unchanged, and discovery continues with the remaining classes. -/
theorem discovery_skips_missing_channel (reg : RecRegistry) (warns : List Nat)
    (c : ReceiverCls) (rest : List ReceiverCls) (h : c.channel = none) :
    registerReceivers reg warns (c :: rest) = registerReceivers reg (warns ++ [c.id]) rest := by
  simp [registerReceivers, h]

theorem discovery_skips_missing_channel_witness :
    (ReceiverCls.mk 5 none).channel = none ∧
    registerReceivers [] [] [ReceiverCls.mk 5 none, ReceiverCls.mk 6 (some "x")]
      = registerReceivers [] ([] ++ [(ReceiverCls.mk 5 none).id]) [ReceiverCls.mk 6 (some "x")] :=
  ⟨rfl, discovery_skips_missing_channel [] [] (ReceiverCls.mk 5 none)
    [ReceiverCls.mk 6 (some "x")] rfl⟩

/-- C3: for a non-empty package list, the wrapped function produced by
`requires(*pkgs)` runs `fn` and returns its result exactly when the gating
existence check passes, and otherwise returns `None`; the gating check as
implemented consults only the last name of the list, so the call behaves as
if only that last name had been declared. -/
theorem requires_gates_on_last_only {α : Type} (oracle : String → Bool)
    (pkgs : List String) (pkg : String) (h : pkgs.getLast? = some pkg) (fn : α) :
    requireCall oracle pkgs fn
      = (if oracle pkg then Except.ok (some fn) else Except.ok none) ∧
    requireCall oracle pkgs fn = requireCall oracle [pkg] fn := by
  constructor
  · simp [requireCall, h, existsPkgs]
  · simp [requireCall, h, existsPkgs]

theorem requires_gates_on_last_only_witness :
    (["Foo", "Bar"].getLast? = some "Bar") ∧
    (requireCall (fun s => s == "Bar") ["Foo", "Bar"] (7 : Nat)
        = (if (fun s => s == "Bar") "Bar" then Except.ok (some 7) else Except.ok none) ∧
     requireCall (fun s => s == "Bar") ["Foo", "Bar"] (7 : Nat)
        = requireCall (fun s => s == "Bar") ["Bar"] (7 : Nat)) :=
  ⟨rfl, requires_gates_on_last_only (fun s => s == "Bar") ["Foo", "Bar"] "Bar" rfl 7⟩

/-- C4: `get_missing_pkgs` is exactly the set difference of the module's
declared package set and the installed set; in particular declaring
`"A", "B"` under a module and taking `installed = {"A"}` leaves `{"B"}`. -/
theorem missing_is_set_difference (table : ReqTable) (M : String) (installed : Finset String) :
    get_missing_pkgs table M installed = get_pkgs table M \ installed ∧
    get_missing_pkgs (declarePkgs [] M ["A", "B"]) M {"A"} = {"B"} := by
  constructor
  · rw [get_missing_pkgs, Finset.sdiff_eq_filter]
  · rw [get_missing_pkgs, get_pkgs, declarePkgs, dictGet_dictSet_self, dictGet_nil]
    decide

/-- C5: declaring the same package name twice under the same module leaves
the module's package set equal to declaring it once; in particular two
`declare(M, "A")` calls from the empty table leave M's set equal to
`{"A"}`. -/
theorem declare_idempotent (table : ReqTable) (M N : String) :
    get_pkgs (declarePkgs (declarePkgs table M [N]) M [N]) M
      = get_pkgs (declarePkgs table M [N]) M ∧
    get_pkgs (declarePkgs (declarePkgs [] M ["A"]) M ["A"]) M = {"A"} := by
  constructor
  · simp only [get_pkgs, declarePkgs, List.foldl_cons, List.foldl_nil, dictGet_dictSet_self]
    simp
  · simp only [get_pkgs, declarePkgs, List.foldl_cons, List.foldl_nil, dictGet_dictSet_self,
      dictGet_nil]
    decide

/-- C7: declaring packages `P` under module `M` leaves `M`'s set equal to the
union of its previous set and `P`; and the declaration operation (the one
table-mutating operation in the core, shared by the `requires` decorator and
the set-requires command) never removes a name from any module's set. -/
theorem declare_additive (table : ReqTable) (M : String) (P : List String) :
    get_pkgs (declarePkgs table M P) M = get_pkgs table M ∪ P.toFinset ∧
    ∀ M2 : String, get_pkgs table M2 ⊆ get_pkgs (declarePkgs table M P) M2 := by
  have hM : get_pkgs (declarePkgs table M P) M = get_pkgs table M ∪ P.toFinset := by
    rw [get_pkgs, get_pkgs, declarePkgs, dictGet_dictSet_self, foldl_insert_toFinset]
  refine ⟨hM, fun M2 => ?_⟩
  by_cases h2 : M2 = M
  · subst h2
    rw [hM]
    exact Finset.subset_union_left
  · rw [get_pkgs, get_pkgs, declarePkgs, dictGet_dictSet_ne _ _ _ _ _ h2]

/-- C10: applying the `requires` decorator with zero package names still
stores the enclosing module in `_requires` (the key becomes present, its set
unchanged from `_requires.get(module, set())`), yet the wrapped function,
whenever invoked, raises `NameError` instead of running `fn`, because the
gating check reads the loop variable `pkg` that the empty loop never
bound. -/
theorem requires_empty_pkgs {α : Type} (table : ReqTable) (M : String)
    (oracle : String → Bool) (fn : α) :
    declarePkgs table M [] = dictSet table M (get_pkgs table M) ∧
    hasKey (declarePkgs table M []) M = true ∧
    get_pkgs (declarePkgs table M []) M = get_pkgs table M ∧
    requireCall oracle [] fn = .error PyExc.nameError := by
  refine ⟨rfl, ?_, ?_, rfl⟩
  · exact hasKey_dictSet table M _
  · rw [get_pkgs, declarePkgs, dictGet_dictSet_self]
    rfl
